import Mathlib

/-!
Verification of the OCR/translation frontend (job status page, polling hook,
result viewer, block highlighter, upload page) against its natural-language
specification.  The TypeScript sources are embedded shallowly: pure view
helpers become Lean functions, React state updates become explicit state
passing, JS numbers used by the progress bar become exact rationals (all the
constants involved — 33.33, 11.11, 99, 100 — are far enough apart that binary
double rounding never changes any comparison made by the code).
-/

/-! ## Data model (frontend/src/types.ts) -/

structure TableMetadata where
  row : Option Nat
  col : Option Nat
  table_id : Option String
  deriving Repr, DecidableEq

structure BlockMetadata where
  bbox : Option (List Int)
  is_heading : Option Bool
  heading_level : Option Nat
  list_level : Option Nat
  table : Option TableMetadata
  confidence : Option Int
  deriving Repr, DecidableEq

structure Block where
  block_id : String
  type : String
  metadata : BlockMetadata
  text : String
  deriving Repr, DecidableEq

structure Page where
  page_index : Nat
  blocks : List Block
  deriving Repr, DecidableEq

structure DocumentMetadata where
  source_filename : String
  total_pages : Nat
  extraction_timestamp : String
  ocr_engine : Option String
  deriving Repr, DecidableEq

structure StructuredDocument where
  document_id : String
  language : String
  pages : List Page
  metadata : DocumentMetadata
  deriving Repr, DecidableEq

structure JobStats where
  total_pages : Option Nat
  total_blocks : Option Nat
  total_characters_arabic : Option Nat
  total_characters_english : Option Nat
  deriving Repr, DecidableEq

structure ProcessingStages where
  extraction : String
  ocr : String
  translation : String
  deriving Repr, DecidableEq

structure Job where
  job_id : String
  status : String
  original_filename : String
  created_at : String
  updated_at : String
  stats : Option JobStats
  error_message : Option String
  processing_stages : ProcessingStages
  deriving Repr, DecidableEq

/-! ## Progress reporting (JobStatusPage.getProgress) -/

/-- Contribution of one stage status to the progress bar: the body of the
`stages.forEach` loop in `getProgress` (`completed` adds 33.33, `in_progress`
adds 11.11, anything else adds nothing). -/
def stageContrib (s : String) : ℚ :=
  if s = "completed" then 33.33 else if s = "in_progress" then 11.11 else 0

/-- `getProgress` from JobStatusPage: 100 for a completed job, 0 for a failed
one, otherwise the summed stage contributions capped at 99. -/
def getProgress (job : Job) : ℚ :=
  if job.status = "completed" then 100
  else if job.status = "failed" then 0
  else
    min (stageContrib job.processing_stages.extraction +
         stageContrib job.processing_stages.ocr +
         stageContrib job.processing_stages.translation) 99

theorem stageContrib_nonneg (s : String) : 0 ≤ stageContrib s := by
  unfold stageContrib
  split_ifs <;> norm_num

theorem stageContrib_le (s : String) : stageContrib s ≤ 33.33 := by
  unfold stageContrib
  split_ifs <;> norm_num

/-- C1: a job whose status is not `completed` reports progress strictly below
100 (a failed job reports 0, any other non-completed job at most 99), and
`getProgress` returns exactly 100 precisely when the status is `completed`. -/
theorem getProgress_capped (job : Job) :
    (job.status ≠ "completed" → getProgress job < 100) ∧
    (job.status = "failed" → getProgress job = 0) ∧
    (job.status ≠ "completed" → job.status ≠ "failed" → getProgress job ≤ 99) ∧
    (getProgress job = 100 ↔ job.status = "completed") := by
  by_cases h1 : job.status = "completed"
  · refine ⟨fun h => absurd h1 h, fun h2 => ?_, fun h => absurd h1 h, ?_⟩
    · rw [h2] at h1; exact absurd h1 (by decide)
    · simp [getProgress, h1]
  · by_cases h2 : job.status = "failed"
    · refine ⟨fun _ => ?_, fun _ => ?_, fun _ h => absurd h2 h, ?_⟩
      · simp [getProgress, h1, h2]
      · simp [getProgress, h1, h2]
      · simp [getProgress, h1, h2]
    · have hle : getProgress job ≤ 99 := by
        simp only [getProgress, if_neg h1, if_neg h2]
        exact min_le_right _ _
      refine ⟨fun _ => lt_of_le_of_lt hle (by norm_num),
              fun h => absurd h h2, fun _ _ => hle, ?_⟩
      constructor
      · intro h100
        rw [h100] at hle
        exact absurd hle (by norm_num)
      · intro h; exact absurd h h1

/-- Witness for C1 at a concrete in-flight job. -/
theorem getProgress_capped_witness :
    getProgress
      { job_id := "j1", status := "extracting", original_filename := "a.pdf",
        created_at := "", updated_at := "", stats := none, error_message := none,
        processing_stages := ⟨"in_progress", "pending", "pending"⟩ } < 100 :=
  (getProgress_capped _).1 (by decide)

/-! ## C3: the closed form of getProgress for in-flight jobs -/

/-- Number of the three pipeline stages whose stage status is exactly `s`. -/
def stageCount (job : Job) (s : String) : ℕ :=
  [job.processing_stages.extraction,
   job.processing_stages.ocr,
   job.processing_stages.translation].count s

/-- C3: for a job neither completed nor failed, `getProgress` equals
`min (33.33·c + 11.11·p) 99` where `c` counts stages marked `completed` and
`p` counts stages marked `in_progress`; the three stages share the weight
equally, and an in-progress stage contributes strictly less than a completed
one. -/
theorem getProgress_formula (job : Job)
    (h1 : job.status ≠ "completed") (h2 : job.status ≠ "failed") :
    getProgress job
        = min (33.33 * (stageCount job "completed" : ℚ)
            + 11.11 * (stageCount job "in_progress" : ℚ)) 99 ∧
      stageContrib "in_progress" < stageContrib "completed" := by
  constructor
  · simp only [getProgress, if_neg h1, if_neg h2, stageCount]
    congr 1
    by_cases e1 : job.processing_stages.extraction = "completed" <;>
      by_cases e2 : job.processing_stages.extraction = "in_progress" <;>
      by_cases o1 : job.processing_stages.ocr = "completed" <;>
      by_cases o2 : job.processing_stages.ocr = "in_progress" <;>
      by_cases t1 : job.processing_stages.translation = "completed" <;>
      by_cases t2 : job.processing_stages.translation = "in_progress" <;>
      simp_all [stageContrib, List.count_cons, beq_iff_eq] <;> norm_num
  · simp only [stageContrib]
    rw [if_neg (by decide)]
    norm_num

/-- Witness for C3: an in-flight job with extraction done and OCR running
reports `min (33.33·1 + 11.11·1) 99 = 44.44`. -/
theorem getProgress_formula_witness :
    getProgress
      { job_id := "j2", status := "ocr", original_filename := "b.pdf",
        created_at := "", updated_at := "", stats := none, error_message := none,
        processing_stages := ⟨"completed", "in_progress", "pending"⟩ }
      = min (33.33 * ((1 : ℕ) : ℚ) + 11.11 * ((1 : ℕ) : ℚ)) 99 :=
  (getProgress_formula _ (by decide) (by decide)).1

/-! ## Job state machine (C2, C7)

The backend that advances `processing_stages` and `status` is not part of the
frontend sources; the step relation below is the one described by the spec
(§4.3) and by claim C2 itself: each stage advances
`pending → in_progress → completed`, the job status is a pure projection of
the stage statuses, and `failed` is reachable from any non-terminal state. -/

/-- One stage's status: the closed `pending | in_progress | completed`
enumeration of spec §3 (a failing stage is modelled by the job-level failure
flag of `Snap`). -/
inductive StageSt where
  | pending
  | in_progress
  | completed
  deriving Repr, DecidableEq

def stageStStr : StageSt → String
  | .pending => "pending"
  | .in_progress => "in_progress"
  | .completed => "completed"

/-- A job snapshot: the three stage statuses plus the terminal-failure flag. -/
structure Snap where
  extraction : StageSt
  ocr : StageSt
  translation : StageSt
  jobFailed : Bool
  deriving Repr, DecidableEq

/-- Modelled from the spec: the status-derivation rule of §4.3 (the backend
job state machine is not under src/).  `status` is the name of the earliest
stage still pending or in progress, `queued` before extraction starts,
`completed` when all three stages are completed, `failed` when the job has
terminally failed. -/
def deriveStatus (s : Snap) : String :=
  if s.jobFailed then "failed"
  else if s.extraction = .pending then "queued"
  else if s.extraction ≠ .completed then "extracting"
  else if s.ocr ≠ .completed then "ocr"
  else if s.translation ≠ .completed then "translating"
  else "completed"

/-- View a snapshot as the `Job` record the frontend receives. -/
def snapToJob (s : Snap) : Job :=
  { job_id := "", status := deriveStatus s, original_filename := "",
    created_at := "", updated_at := "", stats := none, error_message := none,
    processing_stages :=
      ⟨stageStStr s.extraction, stageStStr s.ocr, stageStStr s.translation⟩ }

/-- A single stage advances `pending → in_progress → completed`. -/
inductive StageStep : StageSt → StageSt → Prop where
  | start : StageStep .pending .in_progress
  | finish : StageStep .in_progress .completed

/-- The job-level step relation of claim C2: one stage advances one step (the
status being re-derived), or a non-completed job transitions to `failed`. -/
inductive JobStep : Snap → Snap → Prop where
  | extractionStep : StageStep a b → JobStep ⟨a, o, t, false⟩ ⟨b, o, t, false⟩
  | ocrStep : StageStep a b → JobStep ⟨e, a, t, false⟩ ⟨e, b, t, false⟩
  | translationStep : StageStep a b → JobStep ⟨e, o, a, false⟩ ⟨e, o, b, false⟩
  | toFailed : deriveStatus ⟨e, o, t, false⟩ ≠ "completed" →
      JobStep ⟨e, o, t, false⟩ ⟨e, o, t, true⟩

/-- Integer mirror of `stageContrib` in hundredths, for kernel evaluation. -/
def stageContribH (s : String) : ℤ :=
  if s = "completed" then 3333 else if s = "in_progress" then 1111 else 0

/-- Integer mirror of `getProgress` in hundredths. -/
def getProgressH (job : Job) : ℤ :=
  if job.status = "completed" then 10000
  else if job.status = "failed" then 0
  else
    min (stageContribH job.processing_stages.extraction +
         stageContribH job.processing_stages.ocr +
         stageContribH job.processing_stages.translation) 9900

theorem stageContrib_eq_H (s : String) :
    stageContrib s = (stageContribH s : ℚ) / 100 := by
  unfold stageContrib stageContribH
  split_ifs <;> norm_num

theorem getProgress_eq_H (job : Job) :
    getProgress job = (getProgressH job : ℚ) / 100 := by
  unfold getProgress getProgressH
  split_ifs with h1 h2
  · norm_num
  · norm_num
  · rw [stageContrib_eq_H, stageContrib_eq_H, stageContrib_eq_H]
    rcases le_total (stageContribH job.processing_stages.extraction +
        stageContribH job.processing_stages.ocr +
        stageContribH job.processing_stages.translation) 9900 with h | h
    · rw [min_eq_left h, min_eq_left]
      · push_cast; ring
      · have : ((stageContribH job.processing_stages.extraction +
            stageContribH job.processing_stages.ocr +
            stageContribH job.processing_stages.translation : ℤ) : ℚ) ≤ 9900 := by
          exact_mod_cast h
        push_cast at this ⊢
        linarith
    · rw [min_eq_right h, min_eq_right]
      · norm_num
      · have : (9900 : ℚ) ≤ ((stageContribH job.processing_stages.extraction +
            stageContribH job.processing_stages.ocr +
            stageContribH job.processing_stages.translation : ℤ) : ℚ) := by
          exact_mod_cast h
        push_cast at this ⊢
        linarith

/-- The concrete snapshot with extraction done and OCR running. -/
def snapOcrRunning : Snap := ⟨.completed, .in_progress, .pending, false⟩

/-- `snapOcrRunning` after a terminal failure. -/
def snapOcrFailed : Snap := ⟨.completed, .in_progress, .pending, true⟩

/-- C2 counterexample: the step relation includes the transition to `failed`,
and along that step the reported progress drops from 44.44 to 0, so progress
is not monotonically non-decreasing as claimed. -/
theorem progress_drop_on_failure :
    JobStep snapOcrRunning snapOcrFailed ∧
      getProgress (snapToJob snapOcrFailed) <
        getProgress (snapToJob snapOcrRunning) := by
  constructor
  · exact JobStep.toFailed (by decide)
  · have h1 : getProgressH (snapToJob snapOcrFailed) = 0 := by decide
    have h2 : getProgressH (snapToJob snapOcrRunning) = 4444 := by decide
    rw [getProgress_eq_H, getProgress_eq_H, h1, h2]
    norm_num

/-- C2 (amended): along every step of the job state machine whose target is
not the `failed` state, the reported progress is monotonically
non-decreasing. -/
theorem progress_monotone_nonfailing (s s' : Snap) (h : JobStep s s')
    (hnf : (snapToJob s').status ≠ "failed") :
    getProgress (snapToJob s) ≤ getProgress (snapToJob s') := by
  have key : getProgressH (snapToJob s) ≤ getProgressH (snapToJob s') := by
    cases h with
    | extractionStep hs =>
      rename_i a b o t
      cases hs <;> cases o <;> cases t <;> decide
    | ocrStep hs =>
      rename_i a b e t
      cases hs <;> cases e <;> cases t <;> decide
    | translationStep hs =>
      rename_i a b e o
      cases hs <;> cases e <;> cases o <;> decide
    | toFailed hne => exact absurd rfl hnf
  rw [getProgress_eq_H, getProgress_eq_H]
  have hc : ((getProgressH (snapToJob s) : ℚ)) ≤
      ((getProgressH (snapToJob s') : ℚ)) := by exact_mod_cast key
  linarith

/-- Witness for C2's amended theorem: starting extraction raises progress. -/
theorem progress_monotone_nonfailing_witness :
    getProgress (snapToJob ⟨.pending, .pending, .pending, false⟩) ≤
      getProgress (snapToJob ⟨.in_progress, .pending, .pending, false⟩) :=
  progress_monotone_nonfailing _ _ (JobStep.extractionStep StageStep.start)
    (by decide)

/-- The closed status enumeration of spec §3. -/
def validJobStatuses : List String :=
  ["queued", "extracting", "ocr", "translating", "completed", "failed"]

/-- C7: every job observed through the modelled state machine carries one of
the six statuses `queued, extracting, ocr, translating, completed, failed`. -/
theorem status_closed_enum : ∀ s : Snap, (snapToJob s).status ∈ validJobStatuses := by
  rintro ⟨e, o, t, f⟩
  cases e <;> cases o <;> cases t <;> cases f <;> decide

/-! ## C4: block pairing between the two rendered documents

`BlockHighlighter` renders each block inside a `Paper` whose DOM id is
`block-${language === 'ar' ? 'ar' : 'en'}-${block.block_id}`; `ResultViewer`'s
`handleBlockClick` records the clicked id as highlighted and scrolls the
`block-ar-` and `block-en-` elements for that id into view. -/

/-- The two viewer languages (the `language` prop is typed `'ar' | 'en'`). -/
inductive ViewerLang where
  | ar
  | en
  deriving Repr, DecidableEq

/-- The `language === 'ar' ? 'ar' : 'en'` ternary of `BlockHighlighter`. -/
def viewerLangCode : ViewerLang → String
  | .ar => "ar"
  | .en => "en"

/-- DOM id given to the `Paper` element that `BlockHighlighter` renders a
block into. -/
def blockDomId (language : ViewerLang) (blockId : String) : String :=
  "block-" ++ viewerLangCode language ++ "-" ++ blockId

/-- The effect of `ResultViewer.handleBlockClick`: the highlighted block id it
stores and the DOM ids it scrolls into view. -/
structure ClickEffect where
  highlightedBlockId : Option String
  scrollTargets : List String
  deriving Repr, DecidableEq

/-- `handleBlockClick` from `ResultViewer`. -/
def handleBlockClick (blockId : String) : ClickEffect :=
  { highlightedBlockId := some blockId,
    scrollTargets := ["block-ar-" ++ blockId, "block-en-" ++ blockId] }

/-- C4: clicking a block sets it as the highlighted block and scrolls exactly
the element ids under which `BlockHighlighter` renders that block id in each
language, so a shared `block_id` always resolves to the paired target in the
other language. -/
theorem handleBlockClick_pairs (b : String) :
    (handleBlockClick b).highlightedBlockId = some b ∧
    (handleBlockClick b).scrollTargets = [blockDomId .ar b, blockDomId .en b] ∧
    ∀ l : ViewerLang, blockDomId l b ∈ (handleBlockClick b).scrollTargets := by
  refine ⟨rfl, rfl, ?_⟩
  intro l
  cases l
  · exact List.mem_cons_self _ _
  · exact List.mem_cons_of_mem _ (List.mem_cons_self _ _)

/-! ## C5: the polling hook's `poll` callback (useJobPolling) -/

/-- JavaScript's `x || d` on an optional string: the default is taken both
when the value is absent and when it is the empty string (falsy). -/
def jsOrElse (o : Option String) (d : String) : String :=
  match o with
  | none => d
  | some s => if s = "" then d else s

/-- Observable outcome of one successful `poll` iteration in `useJobPolling`:
whether `onUpdate` fired, whether the interval was cleared, and the arguments
handed to `onComplete` / `onError`. -/
structure PollEffect where
  onUpdateCalled : Bool
  stopsPolling : Bool
  onCompleteArg : Option Job
  onErrorMsg : Option String
  deriving Repr, DecidableEq

/-- The `poll` closure of `useJobPolling`, for a poll that resolves with
`job`: `onUpdate` always fires; on a terminal status the interval is cleared
and `onComplete(job)` (for `completed`) or
`onError(new Error(job.error_message || 'Job failed'))` (for `failed`) is
invoked. -/
def poll (job : Job) : PollEffect :=
  { onUpdateCalled := true,
    stopsPolling := job.status = "completed" ∨ job.status = "failed",
    onCompleteArg := if job.status = "completed" then some job else none,
    onErrorMsg :=
      if job.status = "failed" then some (jsOrElse job.error_message "Job failed")
      else none }

/-- A failed job whose `error_message` is present but empty. -/
def failedJobEmptyMsg : Job :=
  { job_id := "j3", status := "failed", original_filename := "c.pdf",
    created_at := "", updated_at := "", stats := none,
    error_message := some "", processing_stages := ⟨"completed", "failed", "pending"⟩ }

/-- C5 counterexample: for a failed job whose `error_message` is present but
empty, `poll` reports the fallback `Job failed`, not the present
`error_message` (JS `||` treats the empty string as falsy). -/
theorem poll_empty_error_message :
    failedJobEmptyMsg.error_message = some "" ∧
    (poll failedJobEmptyMsg).onErrorMsg = some "Job failed" ∧
    (poll failedJobEmptyMsg).onErrorMsg ≠ some "" := by
  refine ⟨rfl, ?_, ?_⟩ <;> decide

/-- C5 (amended): on a poll returning a failed job the hook stops polling and
calls `onError` with the job's `error_message` when present and non-empty
(falling back to `Job failed` when it is absent or empty); on a completed job
it stops polling and calls `onComplete` with the job; on any other status it
keeps polling and only `onUpdate` fires. -/
theorem poll_terminal_behavior (job : Job) :
    (poll job).onUpdateCalled = true ∧
    (job.status = "failed" →
      (poll job).stopsPolling = true ∧
      (poll job).onCompleteArg = none ∧
      (∀ s, job.error_message = some s → s ≠ "" →
        (poll job).onErrorMsg = some s) ∧
      ((job.error_message = none ∨ job.error_message = some "") →
        (poll job).onErrorMsg = some "Job failed")) ∧
    (job.status = "completed" →
      (poll job).stopsPolling = true ∧
      (poll job).onCompleteArg = some job ∧
      (poll job).onErrorMsg = none) ∧
    (job.status ≠ "completed" → job.status ≠ "failed" →
      (poll job).stopsPolling = false ∧
      (poll job).onCompleteArg = none ∧
      (poll job).onErrorMsg = none) := by
  refine ⟨rfl, fun hf => ?_, fun hc => ?_, fun hnc hnf => ?_⟩
  · have hnc : job.status ≠ "completed" := by rw [hf]; decide
    refine ⟨?_, ?_, ?_, ?_⟩
    · simp [poll, hf]
    · simp [poll, hnc]
    · intro s hs hne
      simp [poll, hf, jsOrElse, hs, hne]
    · rintro (h | h) <;> simp [poll, hf, jsOrElse, h]
  · have hnf : job.status ≠ "failed" := by rw [hc]; decide
    exact ⟨by simp [poll, hc], by simp [poll, hc], by simp [poll, hnf]⟩
  · refine ⟨?_, by simp [poll, hnc], by simp [poll, hnf]⟩
    simp [poll, hnc, hnf]

/-- Witness for C5's amended theorem at a failed job with a real message. -/
theorem poll_terminal_behavior_witness :
    (poll { job_id := "j4", status := "failed", original_filename := "d.pdf",
            created_at := "", updated_at := "", stats := none,
            error_message := some "OCR engine unavailable",
            processing_stages := ⟨"completed", "failed", "pending"⟩ }).onErrorMsg
      = some "OCR engine unavailable" :=
  ((poll_terminal_behavior _).2.1 rfl).2.2.1 _ rfl (by decide)

/-! ## C9: ResultViewer.filterBlocks -/

/-- `p` is a character-wise prefix of `s` (used to implement the JS
`String.prototype.includes` test on already-lowercased strings). -/
def startsWithList (p s : List Char) : Bool :=
  match p, s with
  | [], _ => true
  | _ :: _, [] => false
  | a :: ps, b :: ss => a == b && startsWithList ps ss

/-- `p` occurs contiguously inside `s`. -/
def infixList (p s : List Char) : Bool :=
  if startsWithList p s then true
  else
    match s with
    | [] => false
    | _ :: ss => infixList p ss

/-- JS `text.includes(sub)`. -/
def strIncludes (text sub : String) : Bool :=
  infixList sub.data text.data

/-- JS `s.toLowerCase()` (character-wise lowering; the sources only compare
strings both sides of which went through the same lowering). -/
def lowerStr (s : String) : String :=
  ⟨s.data.map Char.toLower⟩

/-- `filterBlocks` from `ResultViewer`: drop blocks not matching the active
type filter (unless it is `all`), then drop blocks whose lowercased text does
not contain the lowercased search query (unless the query is empty). -/
def filterBlocks (filterType searchQuery : String) (blocks : List Block) :
    List Block :=
  let f1 := if filterType ≠ "all"
    then blocks.filter (fun b => b.type == filterType) else blocks
  if searchQuery ≠ ""
    then f1.filter (fun b => strIncludes (lowerStr b.text) (lowerStr searchQuery))
    else f1

/-- C9: `filterBlocks` returns a sublist of its input (no reordering,
duplication, or mutation), is the identity when the type filter is `all` and
the query empty, and every surviving block matches the active type filter and
contains the query case-insensitively. -/
theorem filterBlocks_spec (filterType searchQuery : String) (blocks : List Block) :
    (filterBlocks filterType searchQuery blocks).Sublist blocks ∧
    filterBlocks "all" "" blocks = blocks ∧
    ∀ b ∈ filterBlocks filterType searchQuery blocks,
      (filterType ≠ "all" → b.type = filterType) ∧
      (searchQuery ≠ "" →
        strIncludes (lowerStr b.text) (lowerStr searchQuery) = true) := by
  refine ⟨?_, by simp [filterBlocks], ?_⟩
  · unfold filterBlocks
    split_ifs <;>
      first
        | exact List.Sublist.refl _
        | exact List.filter_sublist _
        | exact (List.filter_sublist _).trans (List.filter_sublist _)
  · intro b hb
    simp only [filterBlocks] at hb
    constructor
    · intro hft
      by_cases hq : searchQuery ≠ ""
      · rw [if_pos hq, if_pos hft] at hb
        rw [List.mem_filter] at hb
        have hmem := hb.1
        rw [List.mem_filter] at hmem
        exact beq_iff_eq.mp hmem.2
      · rw [if_neg hq, if_pos hft] at hb
        rw [List.mem_filter] at hb
        exact beq_iff_eq.mp hb.2
    · intro hq
      rw [if_pos hq] at hb
      by_cases hft : filterType ≠ "all"
      · rw [if_pos hft] at hb
        rw [List.mem_filter] at hb
        exact hb.2
      · rw [if_neg hft] at hb
        rw [List.mem_filter] at hb
        exact hb.2

/-- Witness for C9 at a concrete heading filter with a matching block. -/
theorem filterBlocks_spec_witness :
    ∀ b ∈ filterBlocks "heading" "intro"
        [{ block_id := "b1", type := "heading",
           metadata := ⟨none, some true, some 1, none, none, none⟩,
           text := "Introduction" }],
      ("heading" ≠ "all" → b.type = "heading") ∧
      ("intro" ≠ "" →
        strIncludes (lowerStr b.text) (lowerStr "intro") = true) :=
  (filterBlocks_spec "heading" "intro" _).2.2

/-! ## C6: ResultViewer's handling of partially available documents -/

/-- One language panel of the viewer: either the `not available` notice or the
rendered pages (each page index paired with the blocks that survive the
active filters, exactly as `renderBlocks` maps over `doc.pages`). -/
inductive ViewerPanel where
  | notAvailable
  | rendered (pages : List (Nat × List Block))
  deriving Repr, DecidableEq

/-- The whole result view: the `No results available` state or the
side-by-side panels. -/
inductive ResultView where
  | noResults
  | sideBySide (arabicPanel englishPanel : ViewerPanel)
  deriving Repr, DecidableEq

/-- `renderBlocks` from `ResultViewer`, as the data it renders: every page of
the document, with `filterBlocks` applied to each page's blocks. -/
def renderBlocks (doc : StructuredDocument) (filterType searchQuery : String) :
    List (Nat × List Block) :=
  doc.pages.map (fun p => (p.page_index, filterBlocks filterType searchQuery p.blocks))

/-- One side of the side-by-side grid: the rendered document when present,
otherwise the `not available` alert. -/
def renderPanel (doc : Option StructuredDocument)
    (filterType searchQuery : String) : ViewerPanel :=
  match doc with
  | none => ViewerPanel.notAvailable
  | some d => ViewerPanel.rendered (renderBlocks d filterType searchQuery)

/-- The `ResultViewer` body once loading finished without a fetch error: the
`No results available` alert when both documents are absent, otherwise the
side-by-side panels. -/
def resultView (arabicDoc englishDoc : Option StructuredDocument)
    (filterType searchQuery : String) : ResultView :=
  if arabicDoc.isNone && englishDoc.isNone then ResultView.noResults
  else ResultView.sideBySide (renderPanel arabicDoc filterType searchQuery)
    (renderPanel englishDoc filterType searchQuery)

/-- C6: with only the Arabic (resp. English) document present, the viewer in
its initial filter state (`all`, empty query) renders that document in full —
every page with all its blocks — next to a `not available` panel for the
missing one; the `No results available` state appears exactly when both
documents are absent. -/
theorem resultView_availability (d : StructuredDocument)
    (arabicDoc englishDoc : Option StructuredDocument)
    (filterType searchQuery : String) :
    resultView (some d) none "all" ""
        = ResultView.sideBySide
            (ViewerPanel.rendered (d.pages.map fun p => (p.page_index, p.blocks)))
            ViewerPanel.notAvailable ∧
    resultView none (some d) "all" ""
        = ResultView.sideBySide ViewerPanel.notAvailable
            (ViewerPanel.rendered (d.pages.map fun p => (p.page_index, p.blocks))) ∧
    (resultView arabicDoc englishDoc filterType searchQuery = ResultView.noResults
      ↔ arabicDoc = none ∧ englishDoc = none) := by
  have hall : ∀ blocks : List Block, filterBlocks "all" "" blocks = blocks := by
    intro blocks; simp [filterBlocks]
  refine ⟨?_, ?_, ?_⟩
  · simp [resultView, renderPanel, renderBlocks, hall]
  · simp [resultView, renderPanel, renderBlocks, hall]
  · unfold resultView
    rcases arabicDoc with _ | a <;> rcases englishDoc with _ | e <;> simp

/-- Witness for C6 with a one-page, one-block Arabic document and no English
document. -/
theorem resultView_availability_witness :
    resultView
        (some { document_id := "d1", language := "ar",
                pages := [{ page_index := 0,
                            blocks := [{ block_id := "b1", type := "paragraph",
                                         metadata := ⟨none, none, none, none, none, none⟩,
                                         text := "نص" }] }],
                metadata := ⟨"a.pdf", 1, "", none⟩ })
        none "all" ""
      = ResultView.sideBySide
          (ViewerPanel.rendered [(0,
            [{ block_id := "b1", type := "paragraph",
               metadata := ⟨none, none, none, none, none, none⟩,
               text := "نص" }])])
          ViewerPanel.notAvailable :=
  (resultView_availability _ none none "all" "").1

/-! ## C8: BlockHighlighter.highlightText

`highlightText` splits the text on `new RegExp(`(` + query + `)`, 'gi')` — a
case-insensitive global regex with the whole query in one capture group —
and wraps the parts equal to the query (case-insensitively) in `<mark>`.
For a query free of regex metacharacters this is exactly: cut out each
leftmost, non-overlapping, case-insensitive occurrence of the query as its
own part, keeping the stretches in between (JS `split` interleaves captured
separators into the result). -/

/-- Case-insensitive character-wise prefix test. -/
def ciStarts (q s : List Char) : Bool :=
  match q, s with
  | [], _ => true
  | _ :: _, [] => false
  | a :: qs, b :: ss => Char.toLower a == Char.toLower b && ciStarts qs ss

/-- The scanner behind `text.split(regex)` for a literal query: `acc` holds
the (reversed) current in-between stretch; an occurrence of `q` emits the
stretch and the occurrence (with its original characters, as the capture
group keeps them) and resumes after it. -/
def splitCapture (q acc s : List Char) : List (List Char) :=
  if h : q ≠ [] ∧ ciStarts q s = true then
    acc.reverse :: s.take q.length :: splitCapture q [] (s.drop q.length)
  else
    match s with
    | [] => [acc.reverse]
    | c :: ss => splitCapture q (c :: acc) ss
termination_by s.length
decreasing_by
  · have hq : q ≠ [] := h.1
    have hs : s ≠ [] := by
      intro hnil
      cases q with
      | nil => exact hq rfl
      | cons a qs =>
        rw [hnil] at h
        simp [ciStarts] at h
    have hql : 0 < q.length := List.length_pos.mpr hq
    have hsl : 0 < s.length := List.length_pos.mpr hs
    simp only [List.length_drop]
    omega
  · simp only [List.length_cons]
    omega

/-- Concatenating everything `splitCapture` produces restores the input. -/
theorem splitCapture_concat (q acc s : List Char) :
    (splitCapture q acc s).flatten = acc.reverse ++ s := by
  induction acc, s using splitCapture.induct q with
  | case1 acc s h ih =>
    rw [splitCapture, dif_pos h]
    simp only [List.flatten_cons, ih, List.reverse_nil, List.nil_append]
    rw [List.take_append_drop]
  | case2 acc h h2 =>
    rw [splitCapture, dif_neg h]
    simp
  | case3 acc c ss h h2 ih =>
    rw [splitCapture, dif_neg h]
    simp only [ih, List.reverse_cons, List.append_assoc, List.singleton_append]

/-- `query` contains no regular-expression metacharacter, so interpolating it
into `new RegExp(..., 'gi')` yields a literal case-insensitive matcher — the
regime in which `splitCapture` models the JS split. -/
def noRegexMeta (s : String) : Bool :=
  s.data.all (fun c =>
    !(['\\', '^', '$', '.', '|', '?', '*', '+', '(', ')', '[', ']',
       '\x7b', '\x7d'].contains c))

/-- `highlightText` from `BlockHighlighter`, as the list of parts it renders:
each part's string content paired with whether it is wrapped in a `<mark>`
(the code marks a part when `part.toLowerCase() === query.toLowerCase()`).
An empty query returns the text untouched. -/
def highlightText (text query : String) : List (String × Bool) :=
  if query = "" then [(text, false)]
  else
    (splitCapture query.data [] text.data).map
      (fun part => (⟨part⟩, part.map Char.toLower == query.data.map Char.toLower))

/-- Concatenation of a list of strings. -/
def concatStrings (l : List String) : String :=
  ⟨(l.map String.data).flatten⟩

/-- C8: `highlightText` with an empty query returns the text unchanged; for a
non-empty metacharacter-free query the parts concatenate back to exactly the
original text, and a part is marked precisely when it equals the query under
case-insensitive comparison. -/
theorem highlightText_spec (text query : String) (hq : query ≠ "")
    (hmeta : noRegexMeta query = true) :
    highlightText text "" = [(text, false)] ∧
    concatStrings ((highlightText text query).map Prod.fst) = text ∧
    ∀ p ∈ highlightText text query,
      p.2 = true ↔ lowerStr p.1 = lowerStr query := by
  refine ⟨by simp [highlightText], ?_, ?_⟩
  · unfold highlightText
    rw [if_neg hq]
    unfold concatStrings
    rw [List.map_map, List.map_map]
    have hcomp : ((String.data ∘ Prod.fst) ∘ fun part : List Char =>
        ((⟨part⟩ : String),
          part.map Char.toLower == query.data.map Char.toLower)) = id := by
      funext part; rfl
    rw [hcomp, List.map_id, splitCapture_concat]
    rfl
  · intro p hp
    unfold highlightText at hp
    rw [if_neg hq] at hp
    rw [List.mem_map] at hp
    obtain ⟨part, hpart, rfl⟩ := hp
    simp only [lowerStr]
    constructor
    · intro h
      exact congrArg (fun l : List Char => (⟨l⟩ : String)) (beq_iff_eq.mp h)
    · intro h
      exact beq_iff_eq.mpr (congrArg String.data h)

/-- Witness for C8: splitting `aXbxc` on the query `x` restores the text. -/
theorem highlightText_spec_witness :
    ("x" : String) ≠ "" ∧ noRegexMeta "x" = true ∧
    concatStrings ((highlightText "aXbxc" "x").map Prod.fst) = "aXbxc" :=
  ⟨by decide, by decide, (highlightText_spec "aXbxc" "x" (by decide) (by decide)).2.1⟩

/-! ## C10: UploadPage.handleFileSelect -/

/-- The file the user picked: its name and size in bytes. -/
structure SelectedFile where
  name : String
  size : Nat
  deriving Repr, DecidableEq

/-- The `UploadPage` state touched by `handleFileSelect`. -/
structure UploadState where
  file : Option SelectedFile
  uploadError : Option String
  deriving Repr, DecidableEq

/-- The `allowedTypes` array of `handleFileSelect`. -/
def allowedTypes : List String :=
  [".pdf", ".docx", ".jpg", ".jpeg", ".png", ".tiff", ".tif"]

/-- JS `s.split(sep)` for a one-character separator. -/
def splitOnChar (sep : Char) : List Char → List (List Char)
  | [] => [[]]
  | c :: cs =>
    let r := splitOnChar sep cs
    if c == sep then [] :: r
    else
      match r with
      | [] => [[c]]
      | x :: xs => (c :: x) :: xs

/-- `'.' + selectedFile.name.split('.').pop()?.toLowerCase()`: the lowercased
final dot-separated component of the name, prefixed with a dot. -/
def fileExt (name : String) : String :=
  "." ++ lowerStr ⟨(splitOnChar '.' name.data).getLastD []⟩

/-- `handleFileSelect` from `UploadPage`, for a change event that carries a
file: an unlisted extension or a size above 50 MB rejects the file (setting
the error message and leaving the stored file unchanged); otherwise the file
is stored and the error cleared. -/
def handleFileSelect (st : UploadState) (f : SelectedFile) : UploadState :=
  if ¬ (allowedTypes.contains (fileExt f.name)) then
    { st with
      uploadError := some ("File type not allowed. Allowed types: "
        ++ String.intercalate ", " allowedTypes) }
  else if f.size > 50 * 1024 * 1024 then
    { st with uploadError := some "File size exceeds 50MB limit" }
  else
    { file := some f, uploadError := none }

/-- C10: `handleFileSelect` accepts a file — stores it and clears the error —
exactly when its lowercased extension is one of the seven allowed ones and its
size is at most `50·1024·1024` bytes; on rejection the previously selected
file is untouched and an error message is set. -/
theorem handleFileSelect_spec (st : UploadState) (f : SelectedFile) :
    ((handleFileSelect st f).file = some f ∧
        (handleFileSelect st f).uploadError = none
      ↔ fileExt f.name ∈ allowedTypes ∧ f.size ≤ 50 * 1024 * 1024) ∧
    (fileExt f.name ∉ allowedTypes ∨ 50 * 1024 * 1024 < f.size →
      (handleFileSelect st f).file = st.file ∧
      ∃ m, (handleFileSelect st f).uploadError = some m) := by
  unfold handleFileSelect
  by_cases hmem : fileExt f.name ∈ allowedTypes
  · have hc : allowedTypes.contains (fileExt f.name) = true := by
      simpa using hmem
    rw [if_neg (not_not_intro hc)]
    by_cases hsize : f.size > 50 * 1024 * 1024
    · rw [if_pos hsize]
      refine ⟨?_, fun _ => ⟨rfl, _, rfl⟩⟩
      constructor
      · rintro ⟨-, h⟩; exact absurd h (by simp)
      · rintro ⟨-, h⟩; omega
    · rw [if_neg hsize]
      refine ⟨?_, ?_⟩
      · constructor
        · intro _; exact ⟨hmem, by omega⟩
        · intro _; exact ⟨rfl, rfl⟩
      · rintro (h | h)
        · exact absurd hmem h
        · omega
  · have hc : ¬ (allowedTypes.contains (fileExt f.name) = true) := by
      simpa using hmem
    rw [if_pos hc]
    refine ⟨?_, fun _ => ⟨rfl, _, rfl⟩⟩
    constructor
    · rintro ⟨-, h⟩; exact absurd h (by simp)
    · rintro ⟨h, -⟩; exact absurd h hmem

/-- Witness for C10: a small uppercase-named PDF is accepted. -/
theorem handleFileSelect_spec_witness :
    (handleFileSelect ⟨none, none⟩ ⟨"Scan.PDF", 1024⟩).file
        = some ⟨"Scan.PDF", 1024⟩ ∧
      (handleFileSelect ⟨none, none⟩ ⟨"Scan.PDF", 1024⟩).uploadError = none :=
  (handleFileSelect_spec ⟨none, none⟩ ⟨"Scan.PDF", 1024⟩).1.mpr
    ⟨by decide, by norm_num⟩
